import Mathlib

/-!
Shallow embedding of the `cnd` session-state registry and manifest model.

The Go packages `pkg/model` (file `dev.go`) and `pkg/storage` (file
`storage.go`) are translated into the namespaces `model` and `storage`
below.  Filesystem effects are made explicit:

* `os.Getwd()` becomes an explicit `cwd : String` argument;
* `os.Getenv("HOME")` becomes an explicit `home : String` argument;
* `os.Stat` becomes an explicit map `fs : String → StatResult`;
* the persisted registry file becomes an explicit document value, and the
  YAML encode/decode mechanics (declared out of scope by the design) are
  the identity on the document's fields.

Path arithmetic (`path.Clean`, `path.Join`, `path.Dir`, `filepath.IsAbs`
on a slash-separated Unix path) is modelled by its documented lexical
semantics over the character list of the path.
-/

namespace Cnd

/-! ## Path primitives (Go `path` / `path/filepath` on Unix) -/

/-- `filepath.IsAbs` / `path.IsAbs` on Unix: the path starts with a slash. -/
def isAbs (p : String) : Bool :=
  match p.data with
  | '/' :: _ => true
  | _ => false

/-- Split a character list at every slash (components may be empty). -/
def splitSlash : List Char → List (List Char)
  | [] => [[]]
  | '/' :: rest => [] :: splitSlash rest
  | c :: rest =>
    match splitSlash rest with
    | [] => [[c]]
    | g :: gs => (c :: g) :: gs

/-- One step of `path.Clean`'s processing: push a path component onto the
stack of retained components (head of the list is the most recent one).
Empty components and `.` are dropped; `..` pops a retained component,
except that at the root it is dropped and at the front of a relative path
it is retained. -/
def cleanPush (rooted : Bool) (stack : List String) (comp : String) : List String :=
  if comp = "" ∨ comp = "." then stack
  else if comp = ".." then
    match stack with
    | [] => if rooted then [] else [".."]
    | top :: rest => if top = ".." then ".." :: top :: rest else rest
  else comp :: stack

/-- Go `path.Clean`, by its documented semantics: iteratively replace
multiple slashes by one, eliminate `.` components, eliminate each inner
`..` together with the preceding component, and eliminate `..` at the
root; the empty result is `.` (or `/` for a rooted path). -/
def pathClean (p : String) : String :=
  if p = "" then "."
  else
    let rooted := isAbs p
    let comps := (splitSlash p.data).map fun cs => String.mk cs
    let stack := comps.foldl (cleanPush rooted) []
    let body := String.intercalate "/" stack.reverse
    if rooted then
      if body = "" then "/" else "/" ++ body
    else
      if body = "" then "." else body

/-- Go `path.Join` / Unix `filepath.Join`: drop leading empty elements,
then join the rest with slashes and clean. -/
def pathJoin : List String → String
  | [] => ""
  | e :: rest =>
    if e = "" then pathJoin rest
    else pathClean (String.intercalate "/" (e :: rest))

/-- Go `path.Dir`: everything up to and including the final slash,
cleaned (`.` when there is no slash). -/
def pathDir (p : String) : String :=
  pathClean (String.mk (p.data.reverse.dropWhile (fun c => c ≠ '/')).reverse)

/-! ## The manifest model (`pkg/model/dev.go`) -/

namespace model

/-- `model.Deployment`: the container to be swapped. -/
structure Deployment where
  name : String
  container : String
  image : String
  command : List String
  args : List String
  deriving DecidableEq, Repr

/-- `model.Swap`: metadata for the container to be swapped. -/
structure Swap where
  deployment : Deployment
  deriving DecidableEq, Repr

/-- `model.Mount`: how the local filesystem is mounted. -/
structure Mount where
  source : String
  target : String
  deriving DecidableEq, Repr

/-- `model.Dev`: a cloud native development environment (the manifest).
The Go `map[string]string` of scripts is an association list. -/
structure Dev where
  swap : Swap
  mount : Mount
  scripts : List (String × String)
  deriving DecidableEq, Repr

/-- Result of `os.Stat` on one path, as `validate` discriminates it:
the error is a non-existence error, some other error (permissions, …),
or the call succeeds and reports whether the path is a directory. -/
inductive StatResult where
  | notExist
  | otherError
  | statOk (isDir : Bool)
  deriving DecidableEq, Repr

/-- The spec-level names for the validation failures of `validate`
(`"Source mount folder %s does not exists"`,
`"Source mount folder is not a directory"`,
`"Swap deployment name cannot be empty"`). -/
inductive ValidationErr where
  | sourceMissing
  | notADirectory
  | nameRequired
  deriving DecidableEq, Repr

/-- Outcome of `(*Dev).validate`.  `nilPanic` is the run-time nil
dereference of `file.Mode()` reached when `os.Stat` fails with an error
that is not a non-existence error (then `file` is nil). -/
inductive ValidateOutcome where
  | ok
  | error (e : ValidationErr)
  | nilPanic
  deriving DecidableEq, Repr

/-- `(*Dev).validate`, with `os.Stat` made explicit as `fs`.  Mirrors the
Go control flow: the stat error is only tested with `os.IsNotExist`, so
any other stat failure leaves `file` nil and `file.Mode()` panics. -/
def validate (fs : String → StatResult) (dev : Dev) : ValidateOutcome :=
  match fs dev.mount.source with
  | .notExist => .error .sourceMissing
  | .otherError => .nilPanic
  | .statOk isDir =>
    if !isDir then .error .notADirectory
    else if dev.swap.deployment.name = "" then .error .nameRequired
    else .ok

/-- The home-shorthand expansion performed by `loadDev` after
unmarshalling: a source starting with `~/` is re-rooted at the home
directory with `filepath.Join(home, source[2:])`. -/
def expandHome (home source : String) : String :=
  match source.data with
  | '~' :: '/' :: rest => pathJoin [home, String.mk rest]
  | _ => source

/-- `(*Dev).fixPath`: a non-absolute `mount.source` is joined against the
manifest file's directory with `path.Join(path.Dir(originalPath), src)`,
itself prefixed by the working directory when `originalPath` is
relative (`path.Join(wd, path.Dir(originalPath), src)`). -/
def Dev.fixPath (dev : Dev) (wd originalPath : String) : Dev :=
  if isAbs dev.mount.source then dev
  else if isAbs originalPath then
    { dev with mount := { dev.mount with
        source := pathJoin [pathDir originalPath, dev.mount.source] } }
  else
    { dev with mount := { dev.mount with
        source := pathJoin [wd, pathDir originalPath, dev.mount.source] } }

/-- Written from the spec's words for comparison with `Dev.fixPath`
(claim C9): if `mount.source` is not already absolute, join it against
the manifest file's containing directory; if the manifest file path
itself is relative, join against the current working directory first. -/
def resolvePathSpec (wd manifestFilePath source : String) : String :=
  if isAbs source then source
  else if isAbs manifestFilePath then pathJoin [pathDir manifestFilePath, source]
  else pathJoin [wd, pathDir manifestFilePath, source]

end model

/-! ## The state registry (`pkg/storage/storage.go`) -/

namespace storage

/-- `storage.Service`: one persisted session record (`folder`,
`syncthing`, the spec's `agentHandle`). -/
structure Service where
  folder : String
  syncthing : String
  deriving DecidableEq, Repr

/-- `storage.Storage`: the persisted registry document, the `path`
field aside (the file location is environment-resolved and outside the
modelled logic).  The Go `map[string]Service` is a lookup function. -/
structure Storage where
  version : String
  services : String → Option Service

/-- The `version` constant `"1.0"`. -/
def version : String := "1.0"

/-- `storage.getFullName`: `fmt.Sprintf("%s/%s/%s", namespace,
dev.Swap.Deployment.Name, dev.Swap.Deployment.Container)`. -/
def getFullName (ns : String) (dev : model.Dev) : String :=
  ns ++ "/" ++ dev.swap.deployment.name ++ "/" ++ dev.swap.deployment.container

/-- `storage.fixPath`: an absolute path is returned as is, a relative one
is joined against the working directory (`os.Getwd`, here the explicit
`cwd`). -/
def fixPath (cwd originalPath : String) : String :=
  if isAbs originalPath then originalPath else pathJoin [cwd, originalPath]

/-- `storage.newService`: the record stores the `fixPath`-resolved folder
and the agent handle. -/
def newService (cwd folder host : String) : Service :=
  { folder := fixPath cwd folder, syncthing := host }

/-- Go map assignment `s.Services[k] = v`. -/
def Storage.upsert (st : Storage) (k : String) (v : Service) : Storage :=
  { st with services := fun k' => if k' = k then some v else st.services k' }

/-- The errors a registry operation can report once the file I/O and
YAML mechanics are abstracted away: only `ErrAlreadyRunning`. -/
inductive StorageErr where
  | alreadyRunning
  deriving DecidableEq, Repr

/-- `storage.Get`'s failure: no active environment for the key. -/
inductive GetErr where
  | notFound
  deriving DecidableEq, Repr

/-- `storage.Insert`, as a transition on the persisted document: returns
the reported error (if any) together with the document after the call
(unchanged whenever nothing was saved).  Mirrors the Go branches: an
identical existing record is a successful no-op; an existing record that
differs and has a non-empty `Syncthing` reports `ErrAlreadyRunning`;
otherwise the record is upserted and saved. -/
def Insert (ns : String) (dev : model.Dev) (host : String) (cwd : String)
    (st : Storage) : Option StorageErr × Storage :=
  let fullName := getFullName ns dev
  let svc := newService cwd dev.mount.source host
  match st.services fullName with
  | some svc2 =>
    if svc2 = svc then (none, st)
    else if svc2.syncthing ≠ "" then (some .alreadyRunning, st)
    else (none, st.upsert fullName svc)
  | none => (none, st.upsert fullName svc)

/-- `storage.Get`: look the key up, failing when it is absent. -/
def Get (ns : String) (dev : model.Dev) (st : Storage) : Except GetErr Service :=
  match st.services (getFullName ns dev) with
  | some svc => .ok svc
  | none => .error .notFound

/-- `storage.Stop`: when the key is present, clear its `Syncthing` and
save; otherwise return without touching the document. -/
def Stop (ns : String) (dev : model.Dev) (st : Storage) : Storage :=
  let fullName := getFullName ns dev
  match st.services fullName with
  | some svc => st.upsert fullName { svc with syncthing := "" }
  | none => st

/-- `storage.Delete`: remove the key (a no-op removal when absent) and
save. -/
def Delete (ns : String) (dev : model.Dev) (st : Storage) : Storage :=
  let fullName := getFullName ns dev
  { st with services := fun k => if k = fullName then none else st.services k }

/-- The persisted registry file's content: the two serialized fields of
`Storage`.  The YAML encode/decode mechanics are out of the modelled
scope, so the document is kept structured. -/
structure StorageDoc where
  version : String
  services : String → Option Service

/-- `(*Storage).save`: marshal the document and overwrite the file. -/
def save (st : Storage) : StorageDoc :=
  { version := st.version, services := st.services }

/-- `storage.load`: a missing file yields a fresh empty registry at the
current version; otherwise the file's document is unmarshalled over the
same defaults. -/
def load (file : Option StorageDoc) : Storage :=
  match file with
  | none => { version := version, services := fun _ => none }
  | some d => { version := d.version, services := d.services }

end storage

/-! ## Concrete fixtures used by witnesses and counterexamples -/

/-- A manifest with the given deployment name, container and mount
source (the remaining fields are irrelevant to the registry). -/
def mkDev (name container source : String) : model.Dev :=
  { swap := { deployment :=
      { name := name, container := container, image := "img", command := [], args := [] } },
    mount := { source := source, target := "/app" },
    scripts := [] }

/-- A registry document holding exactly one record. -/
def mkStorage (key : String) (svc : storage.Service) : storage.Storage :=
  { version := storage.version,
    services := fun k => if k = key then some svc else none }

/-- The empty registry document. -/
def emptyStorage : storage.Storage :=
  { version := storage.version, services := fun _ => none }

/-- A string free of the session-key separator. -/
def noSlash (s : String) : Prop :=
  '/' ∉ s.data

instance (s : String) : Decidable (noSlash s) := by
  unfold noSlash
  infer_instance

/-! ## Helper lemmas -/

/-- Splitting a character list at a slash is unambiguous when the prefix
is slash-free. -/
theorem append_slash_inj {a1 a2 b1 b2 : List Char} (h1 : '/' ∉ a1) (h2 : '/' ∉ a2)
    (h : a1 ++ '/' :: b1 = a2 ++ '/' :: b2) : a1 = a2 ∧ b1 = b2 := by
  induction a1 generalizing a2 with
  | nil =>
    cases a2 with
    | nil => simpa using h
    | cons d ds =>
      exfalso
      simp only [List.nil_append, List.cons_append, List.cons.injEq] at h
      exact h2 (h.1 ▸ List.mem_cons_self d ds)
  | cons c cs ih =>
    cases a2 with
    | nil =>
      exfalso
      simp only [List.nil_append, List.cons_append, List.cons.injEq] at h
      exact h1 (h.1 ▸ List.mem_cons_self c cs)
    | cons d ds =>
      simp only [List.cons_append, List.cons.injEq] at h
      obtain ⟨hcd, hrest⟩ := h
      have h1' : '/' ∉ cs := fun hm => h1 (List.mem_cons_of_mem _ hm)
      have h2' : '/' ∉ ds := fun hm => h2 (List.mem_cons_of_mem _ hm)
      obtain ⟨ha, hb⟩ := ih h1' h2' hrest
      exact ⟨by rw [hcd, ha], hb⟩

/-- The characters of a session key: namespace, name and container
separated by slashes. -/
theorem getFullName_data (ns : String) (dev : model.Dev) :
    (storage.getFullName ns dev).data =
      ns.data ++ '/' ::
        (dev.swap.deployment.name.data ++ '/' :: dev.swap.deployment.container.data) := by
  have hslash : ("/" : String).data = ['/'] := rfl
  simp [storage.getFullName, String.data_append, hslash, List.append_assoc]

/-- Unfolding lemma for `Insert` with its let-bindings resolved. -/
theorem Insert_eq (ns : String) (dev : model.Dev) (h cwd : String) (st : storage.Storage) :
    storage.Insert ns dev h cwd st =
      match st.services (storage.getFullName ns dev) with
      | some svc2 =>
        if svc2 = storage.newService cwd dev.mount.source h then (none, st)
        else if svc2.syncthing ≠ "" then (some .alreadyRunning, st)
        else (none, st.upsert (storage.getFullName ns dev)
          (storage.newService cwd dev.mount.source h))
      | none => (none, st.upsert (storage.getFullName ns dev)
          (storage.newService cwd dev.mount.source h)) := rfl

/-- Lookup after a map assignment. -/
theorem upsert_services (st : storage.Storage) (k : String) (v : storage.Service)
    (k' : String) :
    (st.upsert k v).services k' = if k' = k then some v else st.services k' := rfl

/-! ## Claim theorems -/

/-- C5: `delete(n, s)` removes the entry for `key = sessionKey(n, s)`
unconditionally (no error channel is even reachable, so it succeeds even
when the entry is absent) and persists the document with that key absent
and every other key untouched; a subsequent `get(n, s)` fails with
`NotFoundError`. -/
theorem C5_delete_then_get (ns : String) (dev : model.Dev) (st : storage.Storage) :
    storage.Get ns dev (storage.Delete ns dev st) = .error .notFound ∧
    ∀ k, (storage.Delete ns dev st).services k =
      if k = storage.getFullName ns dev then none else st.services k := by
  refine ⟨?_, fun k => rfl⟩
  simp [storage.Get, storage.Delete]

/-- C7: `save(r)` followed by `load()` returns a registry whose
`schemaVersion` and full session map are exactly those of `r` (the YAML
encode/decode mechanics, out of the modelled scope, are the identity on
the document's two fields). -/
theorem C7_save_load_round_trip (st : storage.Storage) :
    storage.load (some (storage.save st)) = st := rfl

/-- C9: source-path resolution.  The two examples of the spec: a home
directory `/home/u` with `mount.source = "~/x"` resolves to `/home/u/x`,
and a manifest at `/repo/cnd.yml` with `mount.source = "./a"` resolves to
`/repo/a` whatever the working directory is; in general `fixPath` agrees
with the spec's `resolvePath` rule (join a non-absolute source against
the manifest's directory, prefixed by the working directory when the
manifest path is relative), deterministically in the three inputs. -/
theorem C9_path_resolution :
    model.expandHome "/home/u" "~/x" = "/home/u/x" ∧
    (∀ wd, ((mkDev "web" "api" "./a").fixPath wd "/repo/cnd.yml").mount.source = "/repo/a") ∧
    (∀ (dev : model.Dev) (wd mpath : String),
      (dev.fixPath wd mpath).mount.source =
        model.resolvePathSpec wd mpath dev.mount.source) := by
  refine ⟨by decide, fun wd => rfl, fun dev wd mpath => ?_⟩
  simp only [model.Dev.fixPath, model.resolvePathSpec]
  split_ifs <;> rfl

/-- C1 fails as stated: the conflict test compares the whole record, not
only the handle.  Here the existing record's `agentHandle` equals the
requested handle `"h"` — a non-conflicting case by the claim — yet
`insert` fails with `AlreadyRunningError` because the stored folder
`/a` differs from the requested folder `/b`. -/
theorem C1_counterexample :
    (mkStorage "n/web/api" { folder := "/a", syncthing := "h" }).services
        (storage.getFullName "n" (mkDev "web" "api" "/b")) =
      some { folder := "/a", syncthing := "h" } ∧
    (storage.Insert "n" (mkDev "web" "api" "/b") "h" "/w"
        (mkStorage "n/web/api" { folder := "/a", syncthing := "h" })).1 =
      some storage.StorageErr.alreadyRunning := by decide

/-- C1 amended: `insert(n, s, h)` fails with `AlreadyRunningError` if and
only if the existing record for the key has a non-empty `agentHandle` and
differs from the requested record `{folder, agentHandle}` (in the handle
or in the folder); on failure the persisted document is unchanged, and on
success the record at the key is `{folder, agentHandle}` with every other
entry untouched. -/
theorem C1_insert_conflict (ns : String) (dev : model.Dev) (h cwd : String)
    (st : storage.Storage) :
    ((storage.Insert ns dev h cwd st).1 = some .alreadyRunning ↔
      ∃ svc2, st.services (storage.getFullName ns dev) = some svc2 ∧
        svc2.syncthing ≠ "" ∧ svc2 ≠ storage.newService cwd dev.mount.source h) ∧
    ((storage.Insert ns dev h cwd st).1 ≠ none →
      (storage.Insert ns dev h cwd st).2 = st) ∧
    ((storage.Insert ns dev h cwd st).1 = none →
      ∀ k, (storage.Insert ns dev h cwd st).2.services k =
        if k = storage.getFullName ns dev then
          some (storage.newService cwd dev.mount.source h)
        else st.services k) := by
  rcases hsv : st.services (storage.getFullName ns dev) with _ | svc2
  · refine ⟨by simp [Insert_eq, hsv], by simp [Insert_eq, hsv], fun _ k => ?_⟩
    simp [Insert_eq, hsv, upsert_services]
  · by_cases heq : svc2 = storage.newService cwd dev.mount.source h
    · refine ⟨by simp [Insert_eq, hsv, heq], by simp [Insert_eq, hsv, heq], fun _ k => ?_⟩
      by_cases hk : k = storage.getFullName ns dev
      · simp [Insert_eq, hsv, heq, hk]
      · simp [Insert_eq, hsv, heq, hk]
    · by_cases hne : svc2.syncthing = ""
      · refine ⟨by simp [Insert_eq, hsv, heq, hne],
          by simp [Insert_eq, hsv, heq, hne], fun _ k => ?_⟩
        simp [Insert_eq, hsv, heq, hne, upsert_services]
      · refine ⟨by simp [Insert_eq, hsv, heq, hne],
          by simp [Insert_eq, hsv, heq, hne], fun hnone => ?_⟩
        rw [Insert_eq] at hnone
        simp [hsv, heq, hne] at hnone

/-- Witness for C1: a stored record with non-empty handle `h1` conflicts
with an insert requesting handle `h2`; the document is unchanged. -/
theorem C1_insert_conflict_witness :
    (storage.Insert "n" (mkDev "web" "api" "/b") "h2" "/w"
        (mkStorage "n/web/api" { folder := "/b", syncthing := "h1" })).1 =
      some storage.StorageErr.alreadyRunning ∧
    (storage.Insert "n" (mkDev "web" "api" "/b") "h2" "/w"
        (mkStorage "n/web/api" { folder := "/b", syncthing := "h1" })).2 =
      mkStorage "n/web/api" { folder := "/b", syncthing := "h1" } := by
  constructor
  · exact (C1_insert_conflict "n" (mkDev "web" "api" "/b") "h2" "/w"
      (mkStorage "n/web/api" { folder := "/b", syncthing := "h1" })).1.mpr
      ⟨{ folder := "/b", syncthing := "h1" }, by decide, by decide, by decide⟩
  · exact (C1_insert_conflict "n" (mkDev "web" "api" "/b") "h2" "/w"
      (mkStorage "n/web/api" { folder := "/b", syncthing := "h1" })).2.1 (by decide)

/-- C2 fails as stated: from a persisted document already holding a
conflicting record (handle `g1`, non-empty, different from the requested
`g2`), both back-to-back `insert` calls fail with `AlreadyRunningError`,
so "both calls return success" does not hold for every `(n, s, h)`. -/
theorem C2_counterexample :
    (storage.Insert "m" (mkDev "db" "api" "/d") "g2" "/w"
        (mkStorage "m/db/api" { folder := "/d", syncthing := "g1" })).1 =
      some storage.StorageErr.alreadyRunning ∧
    (storage.Insert "m" (mkDev "db" "api" "/d") "g2" "/w"
        (storage.Insert "m" (mkDev "db" "api" "/d") "g2" "/w"
          (mkStorage "m/db/api" { folder := "/d", syncthing := "g1" })).2).1 =
      some storage.StorageErr.alreadyRunning := by decide

/-- C2 amended: for every `(n, s, h)`, working directory and prior
document, the second of two back-to-back `insert` calls returns the same
result as the first and leaves the persisted document exactly as it was
after the first call; in particular, when the first call succeeds the
second succeeds and changes nothing. -/
theorem C2_insert_idempotent (ns : String) (dev : model.Dev) (h cwd : String)
    (st : storage.Storage) :
    storage.Insert ns dev h cwd (storage.Insert ns dev h cwd st).2 =
      storage.Insert ns dev h cwd st := by
  rcases hsv : st.services (storage.getFullName ns dev) with _ | svc2
  · simp [Insert_eq, hsv, upsert_services]
  · by_cases heq : svc2 = storage.newService cwd dev.mount.source h
    · simp [Insert_eq, hsv, heq]
    · by_cases hne : svc2.syncthing = ""
      · simp [Insert_eq, hsv, heq, hne, upsert_services]
      · simp [Insert_eq, hsv, heq, hne]

/-- C6 fails as stated: the key template simply joins the components with
`/`, so components containing the separator collide.  The pairs
`("a/b", name "c")` and `("a", name "b/c")` differ in both namespace and
deployment name yet derive the same session key. -/
theorem C6_counterexample :
    storage.getFullName "a/b" (mkDev "c" "d" "/x") =
      storage.getFullName "a" (mkDev "b/c" "d" "/x") ∧
    ("a/b" ≠ "a" ∧
      (mkDev "c" "d" "/x").swap.deployment.name ≠
        (mkDev "b/c" "d" "/x").swap.deployment.name) := by decide

/-- C6 amended: the session key is injective in namespace,
`swapTarget.name` and `swapTarget.container` as long as the namespace and
the name contain no `/` separator (the trailing container component may
be arbitrary): equal keys force equal components. -/
theorem C6_key_injective (ns1 ns2 : String) (d1 d2 : model.Dev)
    (hn1 : noSlash ns1) (hm1 : noSlash d1.swap.deployment.name)
    (hn2 : noSlash ns2) (hm2 : noSlash d2.swap.deployment.name)
    (heq : storage.getFullName ns1 d1 = storage.getFullName ns2 d2) :
    ns1 = ns2 ∧ d1.swap.deployment.name = d2.swap.deployment.name ∧
      d1.swap.deployment.container = d2.swap.deployment.container := by
  have hdata := congrArg String.data heq
  rw [getFullName_data, getFullName_data] at hdata
  obtain ⟨h1, h2⟩ := append_slash_inj hn1 hn2 hdata
  obtain ⟨h3, h4⟩ := append_slash_inj hm1 hm2 h2
  exact ⟨String.ext h1, String.ext h3, String.ext h4⟩

/-- Witness for C6: two specs with slash-free namespace and name whose
keys agree have equal components. -/
theorem C6_key_injective_witness :
    ("a" : String) = "a" ∧
    (mkDev "b" "c" "/x").swap.deployment.name =
      (mkDev "b" "c" "/y").swap.deployment.name ∧
    (mkDev "b" "c" "/x").swap.deployment.container =
      (mkDev "b" "c" "/y").swap.deployment.container :=
  C6_key_injective "a" "a" (mkDev "b" "c" "/x") (mkDev "b" "c" "/y")
    (by decide) (by decide) (by decide) (by decide) (by decide)

/-- C8 fails as stated: `validate` runs before `fixPath`, so the
existence check stats the source as written, not the resolved path.
Here the resolved source `/repo/a` (manifest `/repo/cnd.yml`, source
`./a`) exists and is a directory and the target name is non-empty — the
claim requires success — yet `validate` fails with "source folder
missing" because the unresolved `./a` does not stat. -/
theorem C8_counterexample :
    (fun p => if p = "/repo/a" then model.StatResult.statOk true else .notExist)
        (((mkDev "web" "api" "./a").fixPath "/w" "/repo/cnd.yml").mount.source) =
      .statOk true ∧
    (mkDev "web" "api" "./a").swap.deployment.name ≠ "" ∧
    model.validate
        (fun p => if p = "/repo/a" then model.StatResult.statOk true else .notExist)
        (mkDev "web" "api" "./a") =
      .error .sourceMissing := by decide

/-- C8 amended: the checks are performed on `mount.source` as it stands
when `validate` runs (after home expansion, before manifest-directory
resolution).  On that path: a non-existent source fails with
`ValidationError("source folder missing")`; an existing non-directory
fails with `ValidationError("source is not a directory")`; a directory
with an empty `swapTarget.name` fails with
`ValidationError("target name required")`; and a directory with a
non-empty name succeeds.  (A stat error other than non-existence is the
separate defect recorded with claim C10.) -/
theorem C8_validate_cases (fs : String → model.StatResult) (dev : model.Dev) :
    (fs dev.mount.source = .notExist →
      model.validate fs dev = .error .sourceMissing) ∧
    (fs dev.mount.source = .statOk false →
      model.validate fs dev = .error .notADirectory) ∧
    (fs dev.mount.source = .statOk true → dev.swap.deployment.name = "" →
      model.validate fs dev = .error .nameRequired) ∧
    (fs dev.mount.source = .statOk true → dev.swap.deployment.name ≠ "" →
      model.validate fs dev = .ok) := by
  refine ⟨fun h1 => ?_, fun h2 => ?_, fun h3 hn => ?_, fun h4 hn => ?_⟩ <;>
    simp [model.validate, *]

/-- Witness for C8: the four outcomes at concrete specs and stat maps. -/
theorem C8_validate_cases_witness :
    model.validate (fun _ => .statOk true) (mkDev "web" "api" "/repo/a") = .ok ∧
    model.validate (fun _ => .notExist) (mkDev "web" "api" "/repo/a") =
      .error .sourceMissing ∧
    model.validate (fun _ => .statOk false) (mkDev "web" "api" "/repo/a") =
      .error .notADirectory ∧
    model.validate (fun _ => .statOk true) (mkDev "" "api" "/repo/a") =
      .error .nameRequired :=
  ⟨(C8_validate_cases (fun _ => .statOk true) (mkDev "web" "api" "/repo/a")).2.2.2
      rfl (by decide),
    (C8_validate_cases (fun _ => .notExist) (mkDev "web" "api" "/repo/a")).1 rfl,
    (C8_validate_cases (fun _ => .statOk false) (mkDev "web" "api" "/repo/a")).2.1 rfl,
    (C8_validate_cases (fun _ => .statOk true) (mkDev "" "api" "/repo/a")).2.2.1
      rfl rfl⟩

/-- C3: when `insert(n, s, h)` succeeds, a subsequent `get(n, s)` returns
a record whose `agentHandle` equals `h` and whose `folder` equals the
resolved absolute path of `s.mount.source` (the `fixPath` resolution
against the working directory performed by `newService`). -/
theorem C3_insert_then_get (ns : String) (dev : model.Dev) (h cwd : String)
    (st : storage.Storage)
    (hok : (storage.Insert ns dev h cwd st).1 = none) :
    storage.Get ns dev (storage.Insert ns dev h cwd st).2 =
      .ok { folder := storage.fixPath cwd dev.mount.source, syncthing := h } := by
  have hrec : storage.newService cwd dev.mount.source h =
      { folder := storage.fixPath cwd dev.mount.source, syncthing := h } := rfl
  rw [← hrec]
  rcases hsv : st.services (storage.getFullName ns dev) with _ | svc2
  · simp [Insert_eq, hsv, storage.Get, upsert_services]
  · by_cases heq : svc2 = storage.newService cwd dev.mount.source h
    · simp [Insert_eq, hsv, heq, storage.Get]
    · by_cases hne : svc2.syncthing = ""
      · simp [Insert_eq, hsv, heq, hne, storage.Get, upsert_services]
      · rw [Insert_eq] at hok
        simp [hsv, heq, hne] at hok

/-- Witness for C3 at the spec's end-to-end scenario. -/
theorem C3_insert_then_get_witness :
    storage.Get "default" (mkDev "web" "app" "/repo/a")
      (storage.Insert "default" (mkDev "web" "app" "/repo/a") "host:1234" "/w"
        emptyStorage).2 =
      .ok { folder := storage.fixPath "/w" "/repo/a", syncthing := "host:1234" } :=
  C3_insert_then_get "default" (mkDev "web" "app" "/repo/a") "host:1234" "/w"
    emptyStorage (by decide)

/-- C4: `stop(n, s)` on a present key clears that record's `agentHandle`
to empty while preserving its `folder` and every other entry, and saves;
on an absent key it returns with the document untouched. -/
theorem C4_stop_clears_handle (ns : String) (dev : model.Dev) (st : storage.Storage) :
    (∀ k, (storage.Stop ns dev st).services k =
      if k = storage.getFullName ns dev then
        (st.services k).map (fun svc => { svc with syncthing := "" })
      else st.services k) ∧
    (st.services (storage.getFullName ns dev) = none → storage.Stop ns dev st = st) := by
  constructor
  · intro k
    rcases hsv : st.services (storage.getFullName ns dev) with _ | svc
    · by_cases hk : k = storage.getFullName ns dev
      · simp [storage.Stop, hsv, hk]
      · simp [storage.Stop, hsv, hk]
    · by_cases hk : k = storage.getFullName ns dev
      · simp [storage.Stop, hsv, hk, upsert_services]
      · simp [storage.Stop, hsv, hk, upsert_services]
  · intro hnone
    simp [storage.Stop, hnone]

/-- Witness for C4: stopping an active record clears its handle and
keeps its folder; stopping on the empty registry is the identity. -/
theorem C4_stop_clears_handle_witness :
    (storage.Stop "n" (mkDev "web" "api" "/b")
        (mkStorage "n/web/api" { folder := "/a", syncthing := "h1" })).services "n/web/api" =
      some { folder := "/a", syncthing := "" } ∧
    storage.Stop "n" (mkDev "web" "api" "/b") emptyStorage = emptyStorage := by
  constructor
  · rw [(C4_stop_clears_handle "n" (mkDev "web" "api" "/b")
      (mkStorage "n/web/api" { folder := "/a", syncthing := "h1" })).1 "n/web/api"]
    decide
  · exact (C4_stop_clears_handle "n" (mkDev "web" "api" "/b") emptyStorage).2 rfl

/-- C10 (code bug): when `os.Stat` on `mount.source` fails with an error
other than non-existence (for example permission denied), `validate` does
not return an error: the guard only recognises `os.IsNotExist`, so
`file.Mode()` dereferences the nil file-info and panics.  Evaluated here
at a spec whose source stats to such an error. -/
theorem C10_validate_nil_deref :
    model.validate
      (fun p => if p = "/secret/data" then .otherError else .notExist)
      (mkDev "web" "api" "/secret/data") = .nilPanic := rfl

end Cnd
